import Mathlib

/-!
Verification of the ClopiNet sequence-embedding module
(`pyannote/audio/embedding/models/clopinet.py`).

The module is shallowly embedded over exact rationals.  Scalar functions
supplied by the numerical library (`F.tanh`, `F.sigmoid`, `torch.exp` inside
softmax, and the square root used by `torch.norm` and `F.instance_norm`) are
abstracted as an `ExtOps` record of functions `ℚ → ℚ`; theorems take the
properties of those functions they need as hypotheses.  Recurrent cells
(`nn.LSTM` / `nn.GRU`) and the batch-normalization collaborators
(`nn.BatchNorm1d`) are external collaborators: they are modelled as abstract
function fields of the module record, constrained only by the shape
discipline the real layers guarantee.  Dense tensors are batch-major nested
lists of rationals; a `PackedSequence` is its flat data plus per-step batch
sizes.  Devices are opaque natural-number labels carried by inputs and by
the `alphas_` parameter (the only tensor the forward pass explicitly moves).
-/

namespace ClopiNetModel

/-- Batch of per-row vectors (`batch_size × dimension`). -/
abbrev Mat : Type := List (List ℚ)

/-- Dense batch-major sequence tensor (`batch_size × n_samples × n_features`). -/
abbrev Ten3 : Type := List (List (List ℚ))

/-- Scalar functions supplied by the external numerical library. -/
structure ExtOps where
  tanh : ℚ → ℚ
  sigmoid : ℚ → ℚ
  sqrt : ℚ → ℚ
  exp : ℚ → ℚ

/-- Dot product of two vectors (`torch` row–weight contraction). -/
def dot (a b : List ℚ) : ℚ := (List.zipWith (· * ·) a b).sum

/-- Sum of squares of a vector; `torch.norm(v, 2)` is `sqrt (sumSq v)`. -/
def sumSq (v : List ℚ) : ℚ := (v.map (fun c => c * c)).sum

/-- Elementwise sum of the rows of a matrix (temporal `sum` pooling of one
batch element, `output.sum(dim=1)`). -/
def sumRows (rows : List (List ℚ)) : List ℚ :=
  match rows with
  | [] => []
  | r :: rs => rs.foldl (List.zipWith (· + ·)) r

/-- Elementwise max of the rows of a matrix (temporal `max` pooling of one
batch element, `output.max(dim=1)`). -/
def maxRows (rows : List (List ℚ)) : List ℚ :=
  match rows with
  | [] => []
  | r :: rs => rs.foldl (List.zipWith max) r

/-- Transpose of a rectangular list-of-lists (used for `transpose(1, 2)` on a
single batch element and for per-channel traversals). -/
def transposeL (m : List (List ℚ)) : List (List ℚ) :=
  (List.range (m.headD []).length).map (fun j => m.map (fun row => row.getD j 0))

/-- `eps` of `F.instance_norm` (torch default `1e-5`). -/
def instEps : ℚ := 1 / 100000

/-- Zero-mean / unit-variance normalization of one channel across time:
`(x - mean) / sqrt(var + eps)` with biased variance, as `F.instance_norm`
computes per (batch element, channel). -/
def channelNorm (ops : ExtOps) (c : List ℚ) : List ℚ :=
  let n : ℚ := (c.length : ℚ)
  let mean := c.sum / n
  let variance := ((c.map (fun x => (x - mean) * (x - mean))).sum) / n
  c.map (fun x => (x - mean) / ops.sqrt (variance + instEps))

/-- `F.instance_norm` on a dense batch-major tensor: the code transposes
time and features, normalizes each feature channel across time, and
transposes back (clopinet.py lines 189–192). -/
def instanceNormDense (ops : ExtOps) (t : Ten3) : Ten3 :=
  t.map (fun seq => transposeL ((transposeL seq).map (channelNorm ops)))

/-- Softmax of a vector: `exp` then normalization to sum one. -/
def softmaxList (ops : ExtOps) (xs : List ℚ) : List ℚ :=
  let es := xs.map ops.exp
  let z := es.sum
  es.map (fun e => e / z)

/-- `F.softmax(attn, dim=1)`: per batch element and per score channel,
softmax across the time axis. -/
def softmaxTime (ops : ExtOps) (t : Ten3) : Ten3 :=
  t.map (fun seq => transposeL ((transposeL seq).map (softmaxList ops)))

/-- Row-level broadcast multiplication: a `(dim)` row times a `(k)` attention
row, broadcasting when the attention row is a single scalar (the `(B,T,D) *
(B,T,1)` product of line 254). -/
def broadcastMulRow (r a : List ℚ) : List ℚ :=
  if a.length = 1 then r.map (fun c => c * a.headD 0) else List.zipWith (· * ·) r a

/-- `output * attn` on dense tensors with feature-axis broadcast. -/
def mulBroadcast (t a : Ten3) : Ten3 :=
  List.zipWith (fun seq aseq => List.zipWith broadcastMulRow seq aseq) t a

/-- Exclusive prefix sums (flat offsets of each packed time step). -/
def prefixSums : List ℕ → List ℕ
  | [] => []
  | x :: xs => 0 :: (prefixSums xs).map (· + x)

/-- `pad_packed_sequence(·, batch_first=True)`: rebuild the dense padded
batch-major tensor from flat packed data and per-step batch sizes, padding
with zero rows. -/
def padPacked (d : List (List ℚ)) (bs : List ℕ) : Ten3 :=
  let b0 := bs.headD 0
  let w := (d.headD []).length
  let offs := prefixSums bs
  (List.range b0).map (fun b =>
    (List.range bs.length).map (fun t =>
      if b < bs.getD t 0 then d.getD (offs.getD t 0 + b) (List.replicate w 0)
      else List.replicate w 0))

/-- `torch.cat(outputs, dim=2)`: feature-axis concatenation of equally shaped
dense tensors. -/
def cat3 : List Ten3 → Ten3
  | [] => []
  | t :: ts => ts.foldl (fun acc u => List.zipWith (List.zipWith (· ++ ·)) acc u) t

/-- A `(a × b × c)` tensor of zeros (initial recurrent hidden states). -/
def zeros3 (a b c : ℕ) : Ten3 :=
  List.replicate a (List.replicate b (List.replicate c 0))

/-- The running sequence value inside `forward`: either a dense batch-major
tensor or a `PackedSequence` (flat data plus per-step batch sizes). -/
inductive Rep : Type
  | dense : Ten3 → Rep
  | packed : List (List ℚ) → List ℕ → Rep
deriving DecidableEq

deriving instance DecidableEq for Except

/-- Python raised exception kinds relevant to this module. -/
inductive PyError : Type
  | valueError
  | notImplementedError
  | attributeError
  | indexError
  | typeError
  | unboundLocalError
deriving DecidableEq

/-- Whether a running value is a `PackedSequence`. -/
def Rep.isPackedRep : Rep → Bool
  | .dense _ => false
  | .packed _ _ => true

/-- Initial hidden state handed to a recurrent layer: `(h, c)` zeros for an
LSTM, a single `h` zeros tensor for a GRU (clopinet.py lines 201–213). -/
inductive Hidden : Type
  | lstm : Ten3 → Ten3 → Hidden
  | gru : Ten3 → Hidden

/-- One recurrent sub-layer (`nn.LSTM` / `nn.GRU`): an external collaborator,
abstracted as a function from initial hidden state and input sequence to the
output sequence (the returned final hidden state is discarded by the code).
The two propositional fields record the shape discipline of the real layers:
a packed input yields a packed output with the same per-step batch sizes and
a dense input yields a dense output. -/
structure RecurrentLayer where
  apply : Hidden → Rep → Rep
  packed_stable : ∀ h d bs, ∃ d2, apply h (.packed d bs) = .packed d2 bs
  dense_stable : ∀ h t, ∃ t2, apply h (.dense t) = .dense t2

/-- One `nn.Linear(in, out, bias=True)` layer: `y = W x + b`. -/
structure LinearLayer where
  weight : List (List ℚ)
  bias : List ℚ
deriving DecidableEq

/-- Application of a linear layer to one row. -/
def LinearLayer.applyRow (l : LinearLayer) (row : List ℚ) : List ℚ :=
  List.zipWith (fun w b => dot w row + b) l.weight l.bias

/-- A linear layer applied to a running value.  On a dense tensor it maps
every row; a `PackedSequence` is not a tensor, so `nn.Linear` applied to it
(line 246 with packed input) fails inside the library with a type error. -/
def LinearLayer.applyRep (l : LinearLayer) : Rep → Except PyError Rep
  | .dense t => .ok (.dense (t.map (fun seq => seq.map l.applyRow)))
  | .packed _ _ => .error .typeError

/-- A linear layer applied to every row of a dense tensor. -/
def LinearLayer.applyDense (l : LinearLayer) (t : Ten3) : Ten3 :=
  t.map (fun seq => seq.map l.applyRow)

/-- Elementwise `F.tanh` on a running value.  On a `PackedSequence`, which
is not a tensor, `F.tanh` (line 247 with packed input) fails inside the
library with a type error. -/
def tanhRep (ops : ExtOps) : Rep → Except PyError Rep
  | .dense t => .ok (.dense (t.map (fun seq => seq.map (fun row => row.map ops.tanh))))
  | .packed _ _ => .error .typeError

/-- Elementwise `F.tanh` on a dense tensor. -/
def tanhDense (ops : ExtOps) (t : Ten3) : Ten3 :=
  t.map (fun seq => seq.map (fun row => row.map ops.tanh))

/-- The `nn.BatchNorm1d(dim, affine=False)` collaborator for pooled
embeddings: opaque running statistics plus abstract transform / statistics
update, both owned by the external library.  A forward call computes
`transform stats batch` and replaces `stats` by `update stats batch`. -/
structure BatchNorm where
  stats : List ℚ
  transform : List ℚ → Mat → Mat
  update : List ℚ → Mat → List ℚ

/-- The `nn.BatchNorm1d(1, affine=False)` collaborator applied to the
`(batch × 1)` tensor of embedding norms. -/
structure NormBatchNorm where
  stats : List ℚ
  transform : List ℚ → List ℚ → List ℚ
  update : List ℚ → List ℚ → List ℚ

/-- The trainable per-dimension weight vector `alphas_`, with the opaque
device label it currently lives on. -/
structure Alphas where
  device : ℕ
  values : List ℚ
deriving DecidableEq

/-- The ClopiNet module state: the configuration attributes stored by
`__init__` plus the constructed sub-layers and parameters.  `normalize` is
`none` for the Python value `False` and `some s` for a string `s` (the empty
string, like `False`, is falsy). -/
structure ClopiNet where
  n_features : ℕ
  rnn : String
  recurrent : List ℕ
  bidirectional : Bool
  pooling : String
  instance_normalize : Bool
  batch_normalize : Bool
  normalize : Option String
  weighted : Bool
  linear : List ℕ
  attention : List ℕ
  num_directions_ : ℕ
  recurrent_layers_ : List RecurrentLayer
  alphas_ : Option Alphas
  linear_layers_ : List LinearLayer
  batch_norm_ : Option BatchNorm
  norm_batch_norm_ : Option NormBatchNorm
  attention_layers_ : List LinearLayer

/-- Python truthiness of the `normalize` attribute (`if self.normalize:`). -/
def truthyNorm : Option String → Bool
  | none => false
  | some s => !(s == "")

/-- The read-only `output_dim` property (clopinet.py lines 164–168):
the last linear size if linear layers were configured, else the concatenated
recurrent width. -/
def ClopiNet.output_dim (m : ClopiNet) : ℕ :=
  if m.linear ≠ [] then m.linear.getLastD 0
  else m.recurrent.sum * (if m.bidirectional then 2 else 1)

/-- Constructor arguments of `ClopiNet.__init__` (`linear` and `attention`
default to Python `None`, replaced by `[]` on lines 95–96). -/
structure Config where
  n_features : ℕ
  rnn : String
  recurrent : List ℕ
  bidirectional : Bool
  pooling : String
  instance_normalize : Bool
  batch_normalize : Bool
  normalize : Option String
  weighted : Bool
  linear : Option (List ℕ)
  attention : Option (List ℕ)

/-- External layer constructors (`nn.LSTM`, `nn.GRU`, `nn.Linear`,
`nn.BatchNorm1d`): the library builds the layer, including its randomly
initialized internal weights, from the requested dimensions. -/
structure LayerSupply where
  mkLSTM : ℕ → ℕ → Bool → RecurrentLayer
  mkGRU : ℕ → ℕ → Bool → RecurrentLayer
  mkLinear : ℕ → ℕ → LinearLayer
  mkBatchNorm : ℕ → BatchNorm
  mkNormBatchNorm : NormBatchNorm

/-- The recurrent-layer construction loop (clopinet.py lines 104–120): one
layer per requested hidden size, chaining the running input dimension, and a
`ValueError` from inside the loop body when the cell kind is neither `LSTM`
nor `GRU`. -/
def buildRecurrent (sup : LayerSupply) (rnn : String) (bidirectional : Bool)
    (nd : ℕ) : ℕ → List ℕ → Except PyError (List RecurrentLayer)
  | _, [] => .ok []
  | input_dim, hidden_dim :: rest =>
    if rnn = "LSTM" then
      match buildRecurrent sup rnn bidirectional nd (hidden_dim * nd) rest with
      | .error e => .error e
      | .ok ls => .ok (sup.mkLSTM input_dim hidden_dim bidirectional :: ls)
    else if rnn = "GRU" then
      match buildRecurrent sup rnn bidirectional nd (hidden_dim * nd) rest with
      | .error e => .error e
      | .ok ls => .ok (sup.mkGRU input_dim hidden_dim bidirectional :: ls)
    else .error .valueError

/-- The linear-layer construction loop (clopinet.py lines 130–136). -/
def buildLinear (sup : LayerSupply) : ℕ → List ℕ → List LinearLayer
  | _, [] => []
  | input_dim, hidden_dim :: rest =>
    sup.mkLinear input_dim hidden_dim :: buildLinear sup hidden_dim rest

/-- The attention-layer construction block (clopinet.py lines 147–162):
a linear stack chained from the raw feature dimension, plus one extra layer
collapsing to a scalar score when the last configured size exceeds one. -/
def buildAttention (sup : LayerSupply) (n_features : ℕ) (attention : List ℕ) :
    List LinearLayer :=
  if attention = [] then []
  else
    let base := buildLinear sup n_features attention
    let finalDim := attention.getLastD n_features
    if finalDim > 1 then base ++ [sup.mkLinear finalDim 1] else base

/-- `ClopiNet.__init__` (clopinet.py lines 79–162): store the configuration,
validate the pooling mode, construct the recurrent stack (validating the
cell kind inside the loop), allocate `alphas_` when weighting is enabled,
construct the linear stack, the batch-normalization collaborators, and the
attention stack. -/
def ClopiNet.init (cfg : Config) (sup : LayerSupply) : Except PyError ClopiNet :=
  let linearL := cfg.linear.getD []
  let attentionL := cfg.attention.getD []
  let nd := if cfg.bidirectional then 2 else 1
  if cfg.pooling ≠ "sum" ∧ cfg.pooling ≠ "max" then .error .valueError
  else
    match buildRecurrent sup cfg.rnn cfg.bidirectional nd cfg.n_features cfg.recurrent with
    | .error e => .error e
    | .ok rls =>
      let concatDim := cfg.recurrent.sum * nd
      let postLinearDim := linearL.getLastD concatDim
      .ok {
        n_features := cfg.n_features
        rnn := cfg.rnn
        recurrent := cfg.recurrent
        bidirectional := cfg.bidirectional
        pooling := cfg.pooling
        instance_normalize := cfg.instance_normalize
        batch_normalize := cfg.batch_normalize
        normalize := cfg.normalize
        weighted := cfg.weighted
        linear := linearL
        attention := attentionL
        num_directions_ := nd
        recurrent_layers_ := rls
        alphas_ := if cfg.weighted then some ⟨0, List.replicate concatDim 1⟩ else none
        linear_layers_ := buildLinear sup concatDim linearL
        batch_norm_ := if cfg.batch_normalize then some (sup.mkBatchNorm postLinearDim) else none
        norm_batch_norm_ :=
          if cfg.normalize = some "ball" ∨ cfg.normalize = some "ring"
          then some sup.mkNormBatchNorm else none
        attention_layers_ := buildAttention sup cfg.n_features attentionL }

/-- A dense input batch: the allocated tensor shape plus its contents and
device. -/
structure DenseInput where
  batch_size : ℕ
  n_samples : ℕ
  n_features : ℕ
  data : Ten3
  device : ℕ
deriving DecidableEq

/-- A length-packed input batch (`PackedSequence`): flat step-major data,
per-step batch sizes, the feature width of the flat data, and its device. -/
structure PackedInput where
  n_features : ℕ
  data : List (List ℚ)
  batch_sizes : List ℕ
  device : ℕ
deriving DecidableEq

/-- The argument of `forward`: a dense tensor or a `PackedSequence`. -/
inductive SeqInput : Type
  | dense : DenseInput → SeqInput
  | packed : PackedInput → SeqInput
deriving DecidableEq

/-- `isinstance(sequence, PackedSequence)` (clopinet.py line 172). -/
def SeqInput.isPacked : SeqInput → Bool
  | .dense _ => false
  | .packed _ => true

/-- Shape coherence of an input batch: the stored dimensions describe the
data (torch tensors are rectangular by construction, and a real
`PackedSequence` has at least one step). -/
def SeqInput.WFShape : SeqInput → Prop
  | .dense d =>
      d.data.length = d.batch_size ∧
      ∀ s ∈ d.data, s.length = d.n_samples ∧ ∀ r ∈ s, r.length = d.n_features
  | .packed p =>
      p.batch_sizes ≠ [] ∧ p.data.length = p.batch_sizes.sum ∧
      ∀ r ∈ p.data, r.length = p.n_features

instance : ∀ x : SeqInput, Decidable x.WFShape := by
  intro x
  cases x <;> (unfold SeqInput.WFShape; infer_instance)

/-- The observed feature dimension of an input: the trailing dimension of
the dense tensor, or the width of the flat packed data (lines 175, 180). -/
def SeqInput.featDim : SeqInput → ℕ
  | .dense d => d.n_features
  | .packed p => p.n_features

/-- The device of an input (lines 177, 181). -/
def SeqInput.device : SeqInput → ℕ
  | .dense d => d.device
  | .packed p => p.device

/-- The input as a running value. -/
def SeqInput.toRep : SeqInput → Rep
  | .dense d => .dense d.data
  | .packed p => .packed p.data p.batch_sizes

/-- Lines 172–181: read batch size, observed feature dimension and device
from the input.  On a packed input `batch_sizes[0]` is read, which fails
with an `IndexError` when the batch-size list is empty. -/
def readShape : SeqInput → Except PyError (ℕ × ℕ × ℕ)
  | .dense d => .ok (d.batch_size, d.n_features, d.device)
  | .packed p =>
    match p.batch_sizes with
    | [] => .error .indexError
    | b :: _ => .ok (b, p.n_features, p.device)

/-- The instance-normalization block (lines 189–192) applied to whatever
`sequence` holds.  On a dense tensor this is the per-sequence, per-channel
normalization.  A `PackedSequence` has no `transpose` method, so with packed
input line 190 fails with an `AttributeError` before anything else runs. -/
def instanceNormRep (ops : ExtOps) : Rep → Except PyError Rep
  | .dense t => .ok (.dense (instanceNormDense ops t))
  | .packed _ _ => .error .attributeError

/-- Line 187, `output = sequence`: the value fed into the first stacked
recurrent layer is the input sequence as received, captured *before* the
instance-normalization block rebinds `sequence`. -/
def rnnStackInput (x : SeqInput) : Rep := x.toRep

/-- Lines 189–192 and 243, `attn = sequence`: the value fed into the
attention sub-layer stack is `sequence` *after* the instance-normalization
block, i.e. the instance-normalized copy whenever instance normalization is
enabled (a fallible step: on packed input the normalization itself fails
with an `AttributeError`). -/
def attentionScoringInput (ops : ExtOps) (m : ClopiNet) (x : SeqInput) :
    Except PyError Rep :=
  if m.instance_normalize then instanceNormRep ops x.toRep else .ok x.toRep

/-- Lines 194–195: when weighting is enabled, the code executes
`self.alphas_ = self.alphas_.to(device)`.  When the parameter already lives
on the input's device, `Parameter.to` returns the parameter itself and the
reassignment is a no-op; on a device change `Parameter.to` returns a plain
tensor and `nn.Module.__setattr__` refuses to rebind the registered
parameter, raising a `TypeError`.  Either way no completed forward call
changes `alphas_`.  Returns the (unchanged) module and the weight values
used later by the forward pass. -/
def alphaMove (m : ClopiNet) (dev : ℕ) : Except PyError (ClopiNet × Option (List ℚ)) :=
  if m.weighted then
    match m.alphas_ with
    | none => .error .attributeError
    | some a =>
      if a.device = dev then .ok (m, some a.values)
      else .error .typeError
  else .ok (m, none)

/-- Lines 201–213: build the zero initial hidden state for one recurrent
layer; with an unrecognized cell kind the local variable `hidden` is never
bound (an `UnboundLocalError` at the layer call). -/
def mkHidden (rnn : String) (nd bs hd : ℕ) : Option Hidden :=
  if rnn = "LSTM" then some (.lstm (zeros3 nd bs hd) (zeros3 nd bs hd))
  else if rnn = "GRU" then some (.gru (zeros3 nd bs hd))
  else none

/-- Lines 197–218: run the stacked recurrent layers, each consuming the
previous layer's output, collecting every layer's output sequence. -/
def stackOutputs (rnn : String) (nd bs : ℕ) :
    Rep → List (ℕ × RecurrentLayer) → Except PyError (List Rep)
  | _, [] => .ok []
  | cur, (hidden_dim, layer) :: rest =>
    match mkHidden rnn nd bs hidden_dim with
    | none => .error .unboundLocalError
    | some h =>
      let out := layer.apply h cur
      match stackOutputs rnn nd bs out rest with
      | .error e => .error e
      | .ok os => .ok (out :: os)

/-- `pad_packed_sequence` on one collected output (line 221); applying it to
a value that is not packed is a library type error. -/
def unpackOne : Rep → Except PyError Ten3
  | .packed d bs => .ok (padPacked d bs)
  | .dense _ => .error .typeError

/-- A collected output that should already be dense (`torch.cat` on a
non-tensor is a library type error). -/
def expectDense : Rep → Except PyError Ten3
  | .dense t => .ok t
  | .packed _ _ => .error .typeError

/-- Lines 220–222: when the input was packed, unpack every collected output
back to a dense padded tensor before concatenation. -/
def densify (packedFlag : Bool) : List Rep → Except PyError (List Ten3)
  | [] => .ok []
  | r :: rs =>
    match (if packedFlag then unpackOne r else expectDense r) with
    | .error e => .error e
    | .ok t =>
      match densify packedFlag rs with
      | .error e => .error e
      | .ok ts => .ok (t :: ts)

/-- Lines 228–229: elementwise multiplication by the `alphas_` weight
vector, broadcast over batch and time. -/
def weightStage (w : List ℚ) (t : Ten3) : Ten3 :=
  t.map (fun seq => seq.map (fun row => List.zipWith (· * ·) row w))

/-- Lines 231–238: the linear stack, each layer followed by `F.tanh`. -/
def linearStage (ops : ExtOps) (m : ClopiNet) (t : Ten3) : Ten3 :=
  (m.linear.zip m.linear_layers_).foldl
    (fun acc p => tanhDense ops (p.2.applyDense acc)) t

/-- One iteration of the attention loop body (lines 246–247):
`attn = layer(attn); attn = F.tanh(attn)`, with library failures (a
`PackedSequence` reaching a tensor operation) propagated. -/
def attnStep (ops : ExtOps) (acc : Except PyError Rep) (l : LinearLayer) :
    Except PyError Rep :=
  match acc with
  | .error e => .error e
  | .ok r =>
    match l.applyRep r with
    | .error e => .error e
    | .ok r2 => tanhRep ops r2

/-- Lines 244–247: the attention sub-layer stack, each layer followed by
`F.tanh`, over `zip(self.attention_layers_, self.attention + [1])`.  On
packed input the very first layer application fails with a library type
error. -/
def attentionScores (ops : ExtOps) (m : ClopiNet) (seqAttn : Rep) :
    Except PyError Rep :=
  (m.attention_layers_.zip (m.attention ++ [1])).foldl
    (fun acc p => attnStep ops acc p.1) (.ok seqAttn)

/-- Lines 242–254: when attention layers exist, run the scoring loop over
the (possibly instance-normalized) sequence — which on packed input fails
with a type error at the first layer, *before* the packed check — then
refuse packed input with a `NotImplementedError` (unreachable for packed
input because of the preceding loop), softmax the scores over time, and
reweight the running tensor. -/
def attentionStage (ops : ExtOps) (m : ClopiNet) (seqAttn : Rep)
    (packedFlag : Bool) (t : Ten3) : Except PyError Ten3 :=
  if m.attention_layers_ = [] then .ok t
  else
    match attentionScores ops m seqAttn with
    | .error e => .error e
    | .ok attn =>
      if packedFlag then .error .notImplementedError
      else
        match attn with
        | .dense a => .ok (mulBroadcast t (softmaxTime ops a))
        | .packed _ _ => .error .typeError

/-- Lines 256–264: temporal pooling.  `sum` sums across time; `max` refuses
packed input with a `NotImplementedError` and otherwise takes the
per-feature maximum.  The module invariant `pooling ∈ {sum, max}` is
validated at construction; an unpooled fall-through would change the tensor
rank, modelled as a type error. -/
def poolStage (m : ClopiNet) (packedFlag : Bool) (t : Ten3) : Except PyError Mat :=
  if m.pooling = "sum" then .ok (t.map sumRows)
  else if m.pooling = "max" then
    if packedFlag then .error .notImplementedError
    else .ok (t.map maxRows)
  else .error .typeError

/-- Lines 268–270: batch normalization of the pooled embedding, updating the
collaborator's running statistics as a side effect. -/
def bnStage (m : ClopiNet) (pooled : Mat) : Except PyError (ClopiNet × Mat) :=
  if m.batch_normalize then
    match m.batch_norm_ with
    | none => .error .attributeError
    | some bn =>
      .ok ({ m with batch_norm_ := some { bn with stats := bn.update bn.stats pooled } },
           bn.transform bn.stats pooled)
  else .ok (m, pooled)

/-- Lines 272–283: output normalization.  When `normalize` is truthy the
per-row L2 norm is computed; `sphere` divides by it; `ball` additionally
scales by `sigmoid` of the batch-normalized norm; `ring` calls the norm
batch-normalizer twice (the first result `norm_` is unused) and scales by
`1 + sigmoid` of the second; any other truthy value leaves the embedding
untouched. -/
def normalizeStage (ops : ExtOps) (m : ClopiNet) (e : Mat) :
    Except PyError (ClopiNet × Mat) :=
  if truthyNorm m.normalize then
    let norms := e.map (fun v => ops.sqrt (sumSq v))
    if m.normalize = some "sphere" then
      .ok (m, List.zipWith (fun v n => v.map (fun c => c / n)) e norms)
    else if m.normalize = some "ball" then
      match m.norm_batch_norm_ with
      | none => .error .attributeError
      | some nb =>
        let s := (nb.transform nb.stats norms).map ops.sigmoid
        .ok ({ m with norm_batch_norm_ := some { nb with stats := nb.update nb.stats norms } },
             List.zipWith (fun v si => v.map (fun c => c / ops.sqrt (sumSq v) * si)) e s)
    else if m.normalize = some "ring" then
      match m.norm_batch_norm_ with
      | none => .error .attributeError
      | some nb =>
        let st1 := nb.update nb.stats norms
        let s2 := (nb.transform st1 norms).map ops.sigmoid
        .ok ({ m with norm_batch_norm_ := some { nb with stats := nb.update st1 norms } },
             List.zipWith (fun v si => v.map (fun c => c / ops.sqrt (sumSq v) * (1 + si))) e s2)
    else .ok (m, e)
  else .ok (m, e)

/-- `ClopiNet.forward` through temporal pooling and batch normalization
(clopinet.py lines 170–270): shape and device reads, the feature-dimension
check, the instance-normalization rebinding of `sequence` (the value later
fed to attention), the `alphas_` `.to(device)` step, the recurrent stack
fed with `rnnStackInput`, unpacking, concatenation, weighting, the linear
stack, the attention stage, pooling, and batch normalization.  Returns the
updated module and the pooled (and, if enabled, batch-normalized)
embedding. -/
def forwardCore (ops : ExtOps) (m : ClopiNet) (x : SeqInput) :
    Except PyError (ClopiNet × Mat) :=
  match readShape x with
  | .error e => .error e
  | .ok (bs, nf, dev) =>
    if nf ≠ m.n_features then .error .valueError
    else
      match attentionScoringInput ops m x with
      | .error e => .error e
      | .ok seqAttn =>
        match alphaMove m dev with
        | .error e => .error e
        | .ok (m1, wOpt) =>
          match stackOutputs m1.rnn m1.num_directions_ bs (rnnStackInput x)
                (m1.recurrent.zip m1.recurrent_layers_) with
          | .error e => .error e
          | .ok outs =>
            match densify x.isPacked outs with
            | .error e => .error e
            | .ok outsD =>
              let t0 := cat3 outsD
              let t1 := match wOpt with
                | some w => weightStage w t0
                | none => t0
              let t2 := linearStage ops m1 t1
              match attentionStage ops m1 seqAttn x.isPacked t2 with
              | .error e => .error e
              | .ok t3 =>
                match poolStage m1 x.isPacked t3 with
                | .error e => .error e
                | .ok pooled => bnStage m1 pooled

/-- `ClopiNet.forward` (clopinet.py lines 170–287): the core pipeline
followed by output normalization.  Returns the updated module (the
batch-norm collaborators' running statistics are the only state that can
differ) and the final embedding batch. -/
def ClopiNet.forward (ops : ExtOps) (m : ClopiNet) (x : SeqInput) :
    Except PyError (ClopiNet × Mat) :=
  match forwardCore ops m x with
  | .error e => .error e
  | .ok (m2, e) => normalizeStage ops m2 e

/-- The output-dimension formula as the specification words it: the last
element of the linear-size list when non-empty, else the sum of recurrent
hidden sizes doubled when bidirectional. -/
def specOutputDim (cfg : Config) : ℕ :=
  if cfg.linear.getD [] ≠ [] then (cfg.linear.getD []).getLastD 0
  else cfg.recurrent.sum * (if cfg.bidirectional then 2 else 1)

/-- Frame relation between a module before and after a successful forward
call: every attribute is unchanged — including `alphas_`, whose
reassignment at lines 194–195 either rebinds the identical parameter (same
device) or fails the call with a `TypeError` — except that the
batch-normalization collaborators may carry new running statistics (their
transform and update behaviour is preserved). -/
structure FrameOk (m m2 : ClopiNet) : Prop where
  n_features_eq : m2.n_features = m.n_features
  rnn_eq : m2.rnn = m.rnn
  recurrent_eq : m2.recurrent = m.recurrent
  bidirectional_eq : m2.bidirectional = m.bidirectional
  pooling_eq : m2.pooling = m.pooling
  instance_normalize_eq : m2.instance_normalize = m.instance_normalize
  batch_normalize_eq : m2.batch_normalize = m.batch_normalize
  normalize_eq : m2.normalize = m.normalize
  weighted_eq : m2.weighted = m.weighted
  linear_eq : m2.linear = m.linear
  attention_eq : m2.attention = m.attention
  num_directions_eq : m2.num_directions_ = m.num_directions_
  recurrent_layers_eq : m2.recurrent_layers_ = m.recurrent_layers_
  linear_layers_eq : m2.linear_layers_ = m.linear_layers_
  attention_layers_eq : m2.attention_layers_ = m.attention_layers_
  alphas_eq : m2.alphas_ = m.alphas_
  bn_fns_eq :
    Option.map (fun b => (b.transform, b.update)) m2.batch_norm_ =
      Option.map (fun b => (b.transform, b.update)) m.batch_norm_
  nbn_fns_eq :
    Option.map (fun b => (b.transform, b.update)) m2.norm_batch_norm_ =
      Option.map (fun b => (b.transform, b.update)) m.norm_batch_norm_

/-! ### Concrete instances used by counterexamples and witnesses -/

/-- Concrete external scalar functions for witnesses: any functions with the
pointwise properties the theorems assume (only the values actually reached
by the witness computations matter). -/
def opsW : ExtOps where
  tanh := fun _ => 0
  sigmoid := fun _ => 1 / 2
  sqrt := fun q => if q < 1 then 0 else if q = 1 then 1 else if q = 25 then 5 else q
  exp := fun _ => 1

/-- A recurrent layer behaving as the identity on its input sequence. -/
def idLayer : RecurrentLayer where
  apply := fun _ r => r
  packed_stable := fun _ d _ => ⟨d, rfl⟩
  dense_stable := fun _ t => ⟨t, rfl⟩

/-- A batch-normalization collaborator whose transform is the identity and
whose statistics never move. -/
def idBatchNorm (d : ℕ) : BatchNorm where
  stats := List.replicate d 0
  transform := fun _ batch => batch
  update := fun st _ => st

/-- The `(batch × 1)` norm batch-normalization collaborator, identity
version. -/
def idNormBatchNorm : NormBatchNorm where
  stats := [0]
  transform := fun _ xs => xs
  update := fun st _ => st

/-- A concrete layer supply for witnesses. -/
def supW : LayerSupply where
  mkLSTM := fun _ _ _ => idLayer
  mkGRU := fun _ _ _ => idLayer
  mkLinear := fun i o => { weight := List.replicate o (List.replicate i 0), bias := List.replicate o 0 }
  mkBatchNorm := idBatchNorm
  mkNormBatchNorm := idNormBatchNorm

/-- A minimal valid module: one feature, one identity LSTM layer of width
one, sum pooling, all options off. -/
def mBase : ClopiNet where
  n_features := 1
  rnn := "LSTM"
  recurrent := [1]
  bidirectional := false
  pooling := "sum"
  instance_normalize := false
  batch_normalize := false
  normalize := none
  weighted := false
  linear := []
  attention := []
  num_directions_ := 1
  recurrent_layers_ := [idLayer]
  alphas_ := none
  linear_layers_ := []
  batch_norm_ := none
  norm_batch_norm_ := none
  attention_layers_ := []

/-- Module with instance normalization enabled (claim C1). -/
def mC1 : ClopiNet := { mBase with instance_normalize := true }

/-- Dense input, one sequence of two frames with one feature (claim C1). -/
def xC1 : SeqInput :=
  .dense { batch_size := 1, n_samples := 2, n_features := 1, data := [[[2], [0]]], device := 0 }

/-- A small dense input on device 0. -/
def xDense0 : SeqInput :=
  .dense { batch_size := 1, n_samples := 1, n_features := 1, data := [[[2]]], device := 0 }

/-- The configuration of the specification's scenario: 40 features, three
mono-directional LSTM layers of width 64, sum pooling, batch normalization
on (claim C2). -/
def cfgC2 : Config where
  n_features := 40
  rnn := "LSTM"
  recurrent := [64, 64, 64]
  bidirectional := false
  pooling := "sum"
  instance_normalize := false
  batch_normalize := true
  normalize := none
  weighted := false
  linear := none
  attention := none

/-- The module `ClopiNet.init cfgC2 supW` constructs. -/
def mC2 : ClopiNet where
  n_features := 40
  rnn := "LSTM"
  recurrent := [64, 64, 64]
  bidirectional := false
  pooling := "sum"
  instance_normalize := false
  batch_normalize := true
  normalize := none
  weighted := false
  linear := []
  attention := []
  num_directions_ := 1
  recurrent_layers_ := [idLayer, idLayer, idLayer]
  alphas_ := none
  linear_layers_ := []
  batch_norm_ := some (idBatchNorm 192)
  norm_batch_norm_ := none
  attention_layers_ := []

/-- Configuration with an unrecognized recurrent cell kind and an *empty*
recurrent-size list (claim C3). -/
def cfgC3 : Config where
  n_features := 1
  rnn := "FOO"
  recurrent := []
  bidirectional := false
  pooling := "sum"
  instance_normalize := false
  batch_normalize := false
  normalize := none
  weighted := false
  linear := none
  attention := none

/-- Same bad cell kind with a non-empty recurrent-size list (claim C3). -/
def cfgC3b : Config := { cfgC3 with recurrent := [1] }

/-- Configuration with the unsupported pooling mode `avg` (claim C7). -/
def cfgC7 : Config := { cfgC3 with rnn := "LSTM", pooling := "avg" }

/-- Otherwise-valid configuration with a truthy unrecognized output
normalization mode (claim C10). -/
def cfgC10 : Config := { cfgC3 with rnn := "LSTM", recurrent := [1], normalize := some "bogus" }

/-- Weighted module whose `alphas_` lives on device 0 (claim C4). -/
def mC4 : ClopiNet := { mBase with weighted := true, alphas_ := some { device := 0, values := [1] } }

/-- Dense input whose trailing feature dimension (3) disagrees with
`mBase.n_features = 1` (claim C5). -/
def xC5 : SeqInput :=
  .dense { batch_size := 1, n_samples := 1, n_features := 3, data := [[[1, 2, 3]]], device := 0 }

/-- A concrete one-by-one linear layer. -/
def linW : LinearLayer where
  weight := [[1]]
  bias := [0]

/-- Module with one attention layer configured (claim C6). -/
def mC6 : ClopiNet := { mBase with attention := [1], attention_layers_ := [linW] }

/-- Module with `max` pooling and no attention layers (claim C6). -/
def mC6max : ClopiNet := { mBase with pooling := "max" }

/-- A length-packed input with one step of batch size one (claim C6). -/
def xC6p : PackedInput where
  n_features := 1
  data := [[5]]
  batch_sizes := [1]
  device := 0

/-- Module with two features, one identity layer and `sphere` output
normalization (claim C8). -/
def mC8 : ClopiNet := { mBase with n_features := 2, recurrent := [2], normalize := some "sphere" }

/-- Dense one-frame input `[3, 4]`, whose embedding has norm 5 (claims C8
and C9). -/
def xC8 : SeqInput :=
  .dense { batch_size := 1, n_samples := 1, n_features := 2, data := [[[3, 4]]], device := 0 }

/-- Same module with `ball` output normalization (claim C9). -/
def mC9 : ClopiNet := { mC8 with normalize := some "ball", norm_batch_norm_ := some idNormBatchNorm }

/-- Module whose output-normalization mode is truthy but unrecognized
(claim C10). -/
def mC10 : ClopiNet := { mBase with normalize := some "bogus" }

/-! ### Helper lemmas -/

theorem FrameOk.same (m : ClopiNet) : FrameOk m m :=
  ⟨rfl, rfl, rfl, rfl, rfl, rfl, rfl, rfl, rfl, rfl, rfl, rfl, rfl, rfl, rfl,
   rfl, rfl, rfl⟩

theorem FrameOk.comp {m m1 m2 : ClopiNet}
    (a : FrameOk m m1) (b : FrameOk m1 m2) : FrameOk m m2 :=
  ⟨b.n_features_eq.trans a.n_features_eq,
   b.rnn_eq.trans a.rnn_eq,
   b.recurrent_eq.trans a.recurrent_eq,
   b.bidirectional_eq.trans a.bidirectional_eq,
   b.pooling_eq.trans a.pooling_eq,
   b.instance_normalize_eq.trans a.instance_normalize_eq,
   b.batch_normalize_eq.trans a.batch_normalize_eq,
   b.normalize_eq.trans a.normalize_eq,
   b.weighted_eq.trans a.weighted_eq,
   b.linear_eq.trans a.linear_eq,
   b.attention_eq.trans a.attention_eq,
   b.num_directions_eq.trans a.num_directions_eq,
   b.recurrent_layers_eq.trans a.recurrent_layers_eq,
   b.linear_layers_eq.trans a.linear_layers_eq,
   b.attention_layers_eq.trans a.attention_layers_eq,
   b.alphas_eq.trans a.alphas_eq,
   b.bn_fns_eq.trans a.bn_fns_eq,
   b.nbn_fns_eq.trans a.nbn_fns_eq⟩

theorem mem_zipWith {α β γ : Type} {f : α → β → γ} :
    ∀ {l1 : List α} {l2 : List β} {c : γ},
      c ∈ List.zipWith f l1 l2 → ∃ a ∈ l1, ∃ b ∈ l2, c = f a b := by
  intro l1
  induction l1 with
  | nil => intro l2 c hc; simp [List.zipWith] at hc
  | cons a l1 ih =>
    intro l2 c hc
    cases l2 with
    | nil => simp [List.zipWith] at hc
    | cons b l2 =>
      rcases List.mem_cons.mp hc with h | h
      · exact ⟨a, List.mem_cons_self a l1, b, List.mem_cons_self b l2, h⟩
      · obtain ⟨a2, ha, b2, hb, hco⟩ := ih h
        exact ⟨a2, List.mem_cons_of_mem a ha, b2, List.mem_cons_of_mem b hb, hco⟩

theorem sumSq_nonneg (v : List ℚ) : 0 ≤ sumSq v := by
  unfold sumSq
  apply List.sum_nonneg
  intro x hx
  obtain ⟨c, _, rfl⟩ := List.mem_map.mp hx
  exact mul_self_nonneg c

theorem sumSq_map_mul (v : List ℚ) (k : ℚ) :
    sumSq (v.map (fun c => c * k)) = sumSq v * (k * k) := by
  induction v with
  | nil => simp [sumSq]
  | cons c v ih =>
    simp only [List.map_cons, sumSq, List.sum_cons] at ih ⊢
    rw [ih]
    ring

theorem alphaMove_ok_eq {m : ClopiNet} {dev : ℕ} {m1 : ClopiNet} {wv : Option (List ℚ)}
    (h : alphaMove m dev = .ok (m1, wv)) : m1 = m := by
  unfold alphaMove at h
  by_cases hw : m.weighted = true
  · rw [if_pos hw] at h
    cases ha : m.alphas_ with
    | none => rw [ha] at h; exact absurd h (by simp)
    | some a =>
      rw [ha] at h
      dsimp only at h
      by_cases hdev : a.device = dev
      · rw [if_pos hdev] at h
        rw [Except.ok.injEq, Prod.mk.injEq] at h
        exact h.1.symm
      · rw [if_neg hdev] at h
        exact absurd h (by simp)
  · rw [if_neg hw] at h
    rw [Except.ok.injEq, Prod.mk.injEq] at h
    exact h.1.symm

theorem bnStage_frame {m : ClopiNet} {pooled : Mat} {m2 : ClopiNet} {e : Mat}
    (h : bnStage m pooled = .ok (m2, e)) : FrameOk m m2 := by
  unfold bnStage at h
  split at h
  · cases hb : m.batch_norm_ with
    | none => rw [hb] at h; exact absurd h (by simp)
    | some bn =>
      rw [hb] at h
      rw [Except.ok.injEq, Prod.mk.injEq] at h
      obtain ⟨h1, -⟩ := h
      subst h1
      refine ⟨rfl, rfl, rfl, rfl, rfl, rfl, rfl, rfl, rfl, rfl, rfl, rfl, rfl, rfl, rfl,
        rfl, ?_, rfl⟩
      rw [hb]; rfl
  · rw [Except.ok.injEq, Prod.mk.injEq] at h
    obtain ⟨h1, -⟩ := h
    subst h1
    exact FrameOk.same m

theorem normalizeStage_frame {ops : ExtOps} {m : ClopiNet} {e : Mat}
    {m3 : ClopiNet} {out : Mat}
    (h : normalizeStage ops m e = .ok (m3, out)) : FrameOk m m3 := by
  unfold normalizeStage at h
  split at h
  · split at h
    · rw [Except.ok.injEq, Prod.mk.injEq] at h
      obtain ⟨h1, -⟩ := h; subst h1; exact FrameOk.same m
    · split at h
      · cases hb : m.norm_batch_norm_ with
        | none => rw [hb] at h; exact absurd h (by simp)
        | some nb =>
          rw [hb] at h
          rw [Except.ok.injEq, Prod.mk.injEq] at h
          obtain ⟨h1, -⟩ := h
          subst h1
          refine ⟨rfl, rfl, rfl, rfl, rfl, rfl, rfl, rfl, rfl, rfl, rfl, rfl, rfl, rfl, rfl,
            rfl, rfl, ?_⟩
          rw [hb]; rfl
      · split at h
        · cases hb : m.norm_batch_norm_ with
          | none => rw [hb] at h; exact absurd h (by simp)
          | some nb =>
            rw [hb] at h
            rw [Except.ok.injEq, Prod.mk.injEq] at h
            obtain ⟨h1, -⟩ := h
            subst h1
            refine ⟨rfl, rfl, rfl, rfl, rfl, rfl, rfl, rfl, rfl, rfl, rfl, rfl, rfl, rfl, rfl,
              rfl, rfl, ?_⟩
            rw [hb]; rfl
        · rw [Except.ok.injEq, Prod.mk.injEq] at h
          obtain ⟨h1, -⟩ := h; subst h1; exact FrameOk.same m
  · rw [Except.ok.injEq, Prod.mk.injEq] at h
    obtain ⟨h1, -⟩ := h; subst h1; exact FrameOk.same m

theorem forwardCore_frame {ops : ExtOps} {m : ClopiNet} {x : SeqInput}
    {m2 : ClopiNet} {e : Mat}
    (h : forwardCore ops m x = .ok (m2, e)) : FrameOk m m2 := by
  unfold forwardCore at h
  split at h
  · exact absurd h (by simp)
  · split at h
    · exact absurd h (by simp)
    · split at h
      · exact absurd h (by simp)
      · split at h
        · exact absurd h (by simp)
        · rename_i m1 wOpt hA
          split at h
          · exact absurd h (by simp)
          · split at h
            · exact absurd h (by simp)
            · split at h
              · dsimp only at h
                split at h
                · exact absurd h (by simp)
                · split at h
                  · exact absurd h (by simp)
                  · rw [alphaMove_ok_eq hA] at h
                    exact bnStage_frame h
              · dsimp only at h
                split at h
                · exact absurd h (by simp)
                · split at h
                  · exact absurd h (by simp)
                  · rw [alphaMove_ok_eq hA] at h
                    exact bnStage_frame h

theorem forward_frame {ops : ExtOps} {m : ClopiNet} {x : SeqInput}
    {m3 : ClopiNet} {out : Mat}
    (h : ClopiNet.forward ops m x = .ok (m3, out)) : FrameOk m m3 := by
  unfold ClopiNet.forward at h
  split at h
  · exact absurd h (by simp)
  · rename_i m2 e heq
    exact (forwardCore_frame heq).comp (normalizeStage_frame h)

theorem zipWith_map_self {α β γ : Type} (f : α → β → γ) (g : α → β) :
    ∀ l : List α, List.zipWith f l (l.map g) = l.map (fun a => f a (g a)) := by
  intro l
  induction l with
  | nil => rfl
  | cons a l ih => simp only [List.map_cons, List.zipWith_cons_cons, ih]

/-! ### Claims -/

/-- C1, counterexample.  The claim states that with instance normalization
enabled the normalized copy feeds the recurrent stack and the original
sequence feeds the attention stack.  At the concrete module `mC1` and input
`xC1` the code does the opposite: `output = sequence` is captured *before*
`sequence` is rebound to its normalized copy, so the recurrent stack
receives the original input while the attention stack receives the
normalized copy. -/
theorem claim_C1_counterexample :
    mC1.instance_normalize = true ∧
    ¬ (instanceNormRep opsW xC1.toRep = .ok (rnnStackInput xC1) ∧
       attentionScoringInput opsW mC1 xC1 = .ok xC1.toRep) := by
  constructor
  · rfl
  · with_unfolding_all decide

/-- C1, amended.  For every forward evaluation with instance normalization
enabled, the sequence fed into the stacked recurrent layers is the
*original* un-normalized input, while the *instance-normalized* copy is the
one fed into the attention sub-layer stack for attention scoring. -/
theorem claim_C1_theorem (ops : ExtOps) (m : ClopiNet) (x : SeqInput)
    (h : m.instance_normalize = true) :
    rnnStackInput x = x.toRep ∧
    attentionScoringInput ops m x = instanceNormRep ops x.toRep := by
  refine ⟨rfl, ?_⟩
  unfold attentionScoringInput
  rw [if_pos h]

/-- C1 witness: the amended theorem instantiated at the concrete module and input. -/
theorem claim_C1_witness :
    mC1.instance_normalize = true ∧
    (rnnStackInput xC1 = xC1.toRep ∧
     attentionScoringInput opsW mC1 xC1 = instanceNormRep opsW xC1.toRep) :=
  ⟨rfl, claim_C1_theorem opsW mC1 xC1 rfl⟩

/-- C2.  For every configuration accepted by construction, the read-only
`output_dim` property equals the last element of the linear-size list when
that list is non-empty, and otherwise the sum of the recurrent hidden sizes
times 2 when bidirectional (times 1 otherwise). -/
theorem claim_C2_theorem (cfg : Config) (sup : LayerSupply) (m : ClopiNet)
    (h : ClopiNet.init cfg sup = .ok m) :
    m.output_dim = specOutputDim cfg := by
  unfold ClopiNet.init at h
  dsimp only at h
  split at h
  · exact absurd h (by simp)
  · split at h
    · exact absurd h (by simp)
    · rw [Except.ok.injEq] at h
      subst h
      rfl

/-- C2 witness: the specification's scenario (40 features, three LSTM layers of 64) gives output dimension 192. -/
theorem claim_C2_witness : mC2.output_dim = specOutputDim cfgC2 :=
  claim_C2_theorem cfgC2 supW mC2 rfl

/-- C3, counterexample.  The claim states that an unrecognized recurrent
cell kind always fails construction, including with an empty recurrent-size
list; but the cell-kind check sits inside the per-layer loop (clopinet.py
line 116), so with `recurrent = []` the loop body never runs and
construction succeeds even with cell kind `FOO`. -/
theorem claim_C3_counterexample :
    (cfgC3.rnn ≠ "LSTM" ∧ cfgC3.rnn ≠ "GRU") ∧
    ∃ m, ClopiNet.init cfgC3 supW = .ok m := by
  exact ⟨by decide, ⟨_, rfl⟩⟩

/-- C3, amended.  For every configuration whose recurrent cell kind is
neither `LSTM` nor `GRU` *and whose recurrent-size list is non-empty*,
construction fails with a `ValueError`; with an empty recurrent-size list
the cell kind is never validated. -/
theorem claim_C3_theorem (cfg : Config) (sup : LayerSupply)
    (hr : cfg.recurrent ≠ [])
    (h1 : cfg.rnn ≠ "LSTM") (h2 : cfg.rnn ≠ "GRU") :
    ClopiNet.init cfg sup = .error .valueError := by
  obtain ⟨hd, tl, hrec⟩ := List.exists_cons_of_ne_nil hr
  have hbuild : ∀ d : ℕ, buildRecurrent sup cfg.rnn cfg.bidirectional
      (if cfg.bidirectional then 2 else 1) d cfg.recurrent = .error .valueError := by
    intro d
    rw [hrec]
    unfold buildRecurrent
    rw [if_neg h1, if_neg h2]
  unfold ClopiNet.init
  dsimp only
  split
  · rfl
  · rw [hbuild cfg.n_features]

/-- C3 witness: bad cell kind with a non-empty recurrent list fails. -/
theorem claim_C3_witness : ClopiNet.init cfgC3b supW = .error .valueError :=
  claim_C3_theorem cfgC3b supW (by decide) (by decide) (by decide)

/-- C7.  For every configuration whose pooling mode is outside
`{sum, max}`, construction fails with a `ValueError`: the pooling check is
the first validation performed, before any sub-layer is built, so the error
is raised for every layer supply and regardless of all other configuration
values. -/
theorem claim_C7_theorem (cfg : Config) (sup : LayerSupply)
    (h1 : cfg.pooling ≠ "sum") (h2 : cfg.pooling ≠ "max") :
    ClopiNet.init cfg sup = .error .valueError := by
  unfold ClopiNet.init
  dsimp only
  rw [if_pos ⟨h1, h2⟩]

/-- C7 witness: pooling mode avg fails construction. -/
theorem claim_C7_witness : ClopiNet.init cfgC7 supW = .error .valueError :=
  claim_C7_theorem cfgC7 supW (by decide) (by decide)

/-- C5.  For every well-shaped input batch, dense or length-packed, of any
batch size and sequence length, whose observed feature dimension differs
from the configured one, the forward pass fails with the dimension-mismatch
`ValueError` before any further processing (so no partial output and no
state change occurs). -/
theorem claim_C5_theorem (ops : ExtOps) (m : ClopiNet) (x : SeqInput)
    (hwf : x.WFShape) (hne : x.featDim ≠ m.n_features) :
    ClopiNet.forward ops m x = .error .valueError := by
  have hcore : forwardCore ops m x = .error .valueError := by
    cases x with
    | dense d =>
      have hne2 : d.n_features ≠ m.n_features := hne
      unfold forwardCore
      simp only [readShape]
      rw [if_pos hne2]
    | packed p =>
      have hne2 : p.n_features ≠ m.n_features := hne
      obtain ⟨hbs, -, -⟩ := hwf
      obtain ⟨b, t, hL⟩ := List.exists_cons_of_ne_nil hbs
      unfold forwardCore
      simp only [readShape, hL]
      rw [if_pos hne2]
  unfold ClopiNet.forward
  rw [hcore]

/-- C5 witness: a 3-feature input against a 1-feature module. -/
theorem claim_C5_witness :
    xC5.WFShape ∧ xC5.featDim ≠ mBase.n_features ∧
    ClopiNet.forward opsW mBase xC5 = .error .valueError :=
  ⟨by decide, by decide, claim_C5_theorem opsW mBase xC5 (by decide) (by decide)⟩

/-- C4.  For every forward evaluation that completes, no persistent module
state is mutated except the batch-normalization collaborators' running
statistics: every other attribute — including the per-dimension weight
vector `alphas_` when weighting is enabled — is unchanged after the call.
The reassignment `self.alphas_ = self.alphas_.to(device)` at lines 194–195
either rebinds the identical parameter (when the device already matches) or
fails the call with a `TypeError` (a cross-device `.to` yields a plain
tensor that `nn.Module.__setattr__` refuses to install), so no successful
call ever changes `alphas_`. -/
theorem claim_C4_theorem (ops : ExtOps) (m : ClopiNet) (x : SeqInput)
    (m3 : ClopiNet) (out : Mat)
    (h : ClopiNet.forward ops m x = .ok (m3, out)) : FrameOk m m3 :=
  forward_frame h

/-- C4 witness: the frame relation instantiated at a concrete weighted
module, whose successful forward run leaves it fully unchanged. -/
theorem claim_C4_witness : FrameOk mC4 mC4 :=
  claim_C4_theorem opsW mC4 xDense0 mC4 [[2]] (by with_unfolding_all rfl)

theorem buildRecurrent_ok (sup : LayerSupply) (rnn : String) (bi : Bool) (nd : ℕ)
    (h : rnn = "LSTM" ∨ rnn = "GRU") :
    ∀ (l : List ℕ) (d : ℕ), ∃ ls, buildRecurrent sup rnn bi nd d l = .ok ls := by
  intro l
  induction l with
  | nil => intro d; exact ⟨[], rfl⟩
  | cons hd tl ih =>
    intro d
    obtain ⟨ls, hls⟩ := ih (hd * nd)
    rcases h with h | h
    · subst h
      exact ⟨_, by unfold buildRecurrent; rw [if_pos rfl, hls]⟩
    · subst h
      exact ⟨_, by unfold buildRecurrent; rw [if_neg (by decide), if_pos rfl, hls]⟩

/-- C10.  A truthy `normalize` value outside `{sphere, ball, ring}` is
never validated: construction succeeds whenever the pooling mode and (for a
non-empty recurrent list) the cell kind are valid, whatever `normalize`
holds; and a forward pass under such a module returns exactly the result of
the pipeline up to pooling and optional batch normalization — the
output-normalization tail changes nothing. -/
theorem claim_C10_theorem :
    (∀ (cfg : Config) (sup : LayerSupply),
        (cfg.pooling = "sum" ∨ cfg.pooling = "max") →
        (cfg.rnn = "LSTM" ∨ cfg.rnn = "GRU" ∨ cfg.recurrent = []) →
        (ClopiNet.init cfg sup).isOk = true) ∧
    (∀ (ops : ExtOps) (m : ClopiNet) (x : SeqInput),
        truthyNorm m.normalize = true →
        m.normalize ≠ some "sphere" → m.normalize ≠ some "ball" →
        m.normalize ≠ some "ring" →
        ClopiNet.forward ops m x = forwardCore ops m x) := by
  constructor
  · intro cfg sup hpool hrnn
    have hb : ∃ ls, buildRecurrent sup cfg.rnn cfg.bidirectional
        (if cfg.bidirectional then 2 else 1) cfg.n_features cfg.recurrent = .ok ls := by
      rcases hrnn with h | h | h
      · exact buildRecurrent_ok sup cfg.rnn cfg.bidirectional _ (Or.inl h) cfg.recurrent cfg.n_features
      · exact buildRecurrent_ok sup cfg.rnn cfg.bidirectional _ (Or.inr h) cfg.recurrent cfg.n_features
      · rw [h]; exact ⟨[], rfl⟩
    obtain ⟨ls, hls⟩ := hb
    unfold ClopiNet.init
    dsimp only
    rw [if_neg (by rintro ⟨a, b⟩; rcases hpool with h | h; exact a h; exact b h), hls]
    rfl
  · intro ops m x ht h1 h2 h3
    unfold ClopiNet.forward
    cases hcore : forwardCore ops m x with
    | error e => rfl
    | ok pr =>
      obtain ⟨m2, e⟩ := pr
      have hnorm : m2.normalize = m.normalize := (forwardCore_frame hcore).normalize_eq
      show normalizeStage ops m2 e = .ok (m2, e)
      unfold normalizeStage
      rw [hnorm]
      rw [if_pos ht]
      dsimp only
      rw [if_neg h1, if_neg h2, if_neg h3]

/-- C10 witness: mode bogus passes construction and leaves the embedding untouched. -/
theorem claim_C10_witness :
    (ClopiNet.init cfgC10 supW).isOk = true ∧
    ClopiNet.forward opsW mC10 xDense0 = forwardCore opsW mC10 xDense0 :=
  ⟨claim_C10_theorem.1 cfgC10 supW (Or.inl rfl) (Or.inl rfl),
   claim_C10_theorem.2 opsW mC10 xDense0 rfl (by decide) (by decide) (by decide)⟩

/-- C8.  With output-normalization mode `sphere`, for every forward
evaluation whose pooled (and, if enabled, batch-normalized) embedding `e`
has rows of nonzero L2 norm, every returned embedding vector has L2 norm
equal to 1.  The square root supplied by the library is abstract, so the
theorem assumes its defining property at the points actually used:
`sqrt s * sqrt s = s` at each row's sum of squares, and `sqrt 1 = 1`. -/
theorem claim_C8_theorem (ops : ExtOps) (m : ClopiNet) (x : SeqInput)
    (mc : ClopiNet) (e : Mat)
    (hmode : m.normalize = some "sphere")
    (hcore : forwardCore ops m x = .ok (mc, e))
    (hsq : ∀ v ∈ e, ops.sqrt (sumSq v) * ops.sqrt (sumSq v) = sumSq v)
    (hnz : ∀ v ∈ e, ops.sqrt (sumSq v) ≠ 0)
    (h1 : ops.sqrt 1 = 1)
    (m3 : ClopiNet) (out : Mat)
    (h : ClopiNet.forward ops m x = .ok (m3, out)) :
    ∀ w ∈ out, sumSq w = 1 ∧ ops.sqrt (sumSq w) = 1 := by
  have hnorm : mc.normalize = m.normalize := (forwardCore_frame hcore).normalize_eq
  unfold ClopiNet.forward at h
  rw [hcore] at h
  dsimp only at h
  unfold normalizeStage at h
  rw [hnorm, hmode] at h
  rw [if_pos (by decide)] at h
  dsimp only at h
  rw [if_pos rfl] at h
  rw [Except.ok.injEq, Prod.mk.injEq] at h
  obtain ⟨-, hout⟩ := h
  subst hout
  intro w hw
  rw [zipWith_map_self] at hw
  obtain ⟨v, hv, rfl⟩ := List.mem_map.mp hw
  have hn2 := hsq v hv
  have hn0 := hnz v hv
  have hsum : sumSq (v.map fun c => c / ops.sqrt (sumSq v)) = 1 := by
    have hfun : (fun c => c / ops.sqrt (sumSq v)) = fun c => c * (ops.sqrt (sumSq v))⁻¹ :=
      funext fun c => div_eq_mul_inv c _
    rw [hfun, sumSq_map_mul]
    set n := ops.sqrt (sumSq v) with hn
    rw [← hn2]
    field_simp
  exact ⟨hsum, by rw [hsum, h1]⟩

/-- C8 witness: the embedding of the input with pooled row (3, 4) is (3/5, 4/5), of norm one. -/
theorem claim_C8_witness :
    sumSq [(3 : ℚ)/5, 4/5] = 1 ∧ opsW.sqrt (sumSq [(3 : ℚ)/5, 4/5]) = 1 :=
  claim_C8_theorem opsW mC8 xC8 mC8 [[3, 4]] rfl (by with_unfolding_all rfl)
    (by with_unfolding_all decide) (by with_unfolding_all decide)
    (by with_unfolding_all decide) mC8 [[3/5, 4/5]] (by with_unfolding_all rfl)
    [(3 : ℚ)/5, 4/5] (by with_unfolding_all decide)

/-- C9.  With output-normalization mode `ball`, for every forward
evaluation whose pooled (and, if enabled, batch-normalized) embedding has
rows of nonzero L2 norm, every returned embedding vector has L2 norm
strictly below 1: the unit vector is rescaled by a sigmoid of the
batch-normalized norm, and the library's sigmoid takes values strictly
inside (0, 1) while its square root is below 1 on [0, 1). -/
theorem claim_C9_theorem (ops : ExtOps) (m : ClopiNet) (x : SeqInput)
    (mc : ClopiNet) (e : Mat)
    (hmode : m.normalize = some "ball")
    (hcore : forwardCore ops m x = .ok (mc, e))
    (hsq : ∀ v ∈ e, ops.sqrt (sumSq v) * ops.sqrt (sumSq v) = sumSq v)
    (hnz : ∀ v ∈ e, ops.sqrt (sumSq v) ≠ 0)
    (hsig : ∀ y : ℚ, 0 < ops.sigmoid y ∧ ops.sigmoid y < 1)
    (hsqlt : ∀ y : ℚ, 0 ≤ y → y < 1 → ops.sqrt y < 1)
    (m3 : ClopiNet) (out : Mat)
    (h : ClopiNet.forward ops m x = .ok (m3, out)) :
    ∀ w ∈ out, sumSq w < 1 ∧ ops.sqrt (sumSq w) < 1 := by
  have hnorm : mc.normalize = m.normalize := (forwardCore_frame hcore).normalize_eq
  unfold ClopiNet.forward at h
  rw [hcore] at h
  dsimp only at h
  unfold normalizeStage at h
  rw [hnorm, hmode] at h
  rw [if_pos (by decide)] at h
  dsimp only at h
  rw [if_neg (by decide), if_pos rfl] at h
  cases hnb : mc.norm_batch_norm_ with
  | none => rw [hnb] at h; exact absurd h (by simp)
  | some nb =>
    rw [hnb] at h
    rw [Except.ok.injEq, Prod.mk.injEq] at h
    obtain ⟨-, hout⟩ := h
    subst hout
    intro w hw
    obtain ⟨v, hv, si, hsi, rfl⟩ := mem_zipWith hw
    obtain ⟨y, -, rfl⟩ := List.mem_map.mp hsi
    obtain ⟨hs0, hs1⟩ := hsig y
    have hn2 := hsq v hv
    have hn0 := hnz v hv
    have hsum : sumSq (v.map fun c => c / ops.sqrt (sumSq v) * ops.sigmoid y) =
        ops.sigmoid y * ops.sigmoid y := by
      have hfun : (fun c => c / ops.sqrt (sumSq v) * ops.sigmoid y) =
          fun c => c * (ops.sigmoid y / ops.sqrt (sumSq v)) :=
        funext fun c => by ring
      rw [hfun, sumSq_map_mul]
      set n := ops.sqrt (sumSq v) with hn
      rw [← hn2]
      field_simp
    have hlt : ops.sigmoid y * ops.sigmoid y < 1 := by nlinarith
    refine ⟨by rw [hsum]; exact hlt, ?_⟩
    exact hsqlt _ (sumSq_nonneg _) (by rw [hsum]; exact hlt)

/-- C9 witness: with sigmoid one half the ball-normalized row is (3/10, 2/5), of norm one half. -/
theorem claim_C9_witness :
    sumSq [(3 : ℚ)/10, 2/5] < 1 ∧ opsW.sqrt (sumSq [(3 : ℚ)/10, 2/5]) < 1 :=
  claim_C9_theorem opsW mC9 xC8 mC9 [[3, 4]] rfl (by with_unfolding_all rfl)
    (by with_unfolding_all decide) (by with_unfolding_all decide)
    (fun y => by constructor <;> norm_num [opsW])
    (fun y h0 hlt => by simp only [opsW]; rw [if_pos hlt]; norm_num)
    mC9 [[3/10, 2/5]] (by with_unfolding_all rfl)
    [(3 : ℚ)/10, 2/5] (by with_unfolding_all decide)

theorem mkHidden_some (rnn : String) (nd bs hd : ℕ) (h : rnn = "LSTM" ∨ rnn = "GRU") :
    ∃ hh, mkHidden rnn nd bs hd = some hh := by
  rcases h with rfl | rfl
  · exact ⟨_, by unfold mkHidden; rw [if_pos rfl]⟩
  · exact ⟨_, by unfold mkHidden; rw [if_neg (by decide), if_pos rfl]⟩

theorem stackOutputs_packed_ok (rnn : String) (nd bs : ℕ)
    (h : rnn = "LSTM" ∨ rnn = "GRU") :
    ∀ (l : List (ℕ × RecurrentLayer)) (d : List (List ℚ)) (bsl : List ℕ),
      ∃ outs, stackOutputs rnn nd bs (.packed d bsl) l = .ok outs ∧
        ∀ o ∈ outs, o.isPackedRep = true := by
  intro l
  induction l with
  | nil => intro d bsl; exact ⟨[], rfl, by simp⟩
  | cons pr rest ih =>
    intro d bsl
    obtain ⟨hd2, layer⟩ := pr
    obtain ⟨hh, hmk⟩ := mkHidden_some rnn nd bs hd2 h
    obtain ⟨d2, happ⟩ := layer.packed_stable hh d bsl
    obtain ⟨outs, hrec, hall⟩ := ih d2 bsl
    refine ⟨Rep.packed d2 bsl :: outs, ?_, ?_⟩
    · unfold stackOutputs
      rw [hmk]
      dsimp only
      rw [happ, hrec]
    · intro o ho
      rcases List.mem_cons.mp ho with rfl | ho2
      · rfl
      · exact hall o ho2

theorem densify_packed_ok :
    ∀ (outs : List Rep), (∀ o ∈ outs, o.isPackedRep = true) →
      ∃ ts, densify true outs = .ok ts := by
  intro outs
  induction outs with
  | nil => intro _; exact ⟨[], rfl⟩
  | cons r rs ih =>
    intro hall
    obtain ⟨ts, hts⟩ := ih (fun o ho => hall o (List.mem_cons_of_mem r ho))
    have hr := hall r (List.mem_cons_self r rs)
    cases r with
    | dense t => simp [Rep.isPackedRep] at hr
    | packed d bsl =>
      refine ⟨padPacked d bsl :: ts, ?_⟩
      simp [densify, unpackOne, hts]

theorem foldl_attnStep_error (ops : ExtOps) (e : PyError) :
    ∀ L : List (LinearLayer × ℕ),
      L.foldl (fun acc p => attnStep ops acc p.1) (.error e) = .error e := by
  intro L
  induction L with
  | nil => rfl
  | cons pr rest ih =>
    simp only [List.foldl_cons]
    rw [show attnStep ops (.error e) pr.1 = .error e from rfl]
    exact ih

theorem attentionScores_packed (ops : ExtOps) (m : ClopiNet)
    (d : List (List ℚ)) (bsl : List ℕ) (h : m.attention_layers_ ≠ []) :
    attentionScores ops m (.packed d bsl) = .error .typeError := by
  obtain ⟨l0, rest, hA⟩ := List.exists_cons_of_ne_nil h
  unfold attentionScores
  rw [hA]
  cases hAt : m.attention with
  | nil =>
    simp only [List.nil_append, List.zip_cons_cons, List.zip_nil_right,
      List.foldl_cons, List.foldl_nil]
    rfl
  | cons a0 arest =>
    simp only [List.cons_append, List.zip_cons_cons, List.foldl_cons]
    rw [show attnStep ops (.ok (Rep.packed d bsl)) l0 = .error .typeError from rfl]
    exact foldl_attnStep_error ops .typeError _

theorem forwardCore_packed_shape (ops : ExtOps) (m : ClopiNet) (p : PackedInput)
    (hwf : (SeqInput.packed p).WFShape)
    (hf : p.n_features = m.n_features)
    (hin : m.instance_normalize = false)
    (hrnn : m.rnn = "LSTM" ∨ m.rnn = "GRU" ∨ m.recurrent = [] ∨ m.recurrent_layers_ = [])
    (hwa : m.weighted = true → ∃ a, m.alphas_ = some a ∧ a.device = p.device) :
    ∃ t2 : Ten3, forwardCore ops m (SeqInput.packed p) =
      match attentionStage ops m (Rep.packed p.data p.batch_sizes) true t2 with
      | .error e => .error e
      | .ok t3 =>
        match poolStage m true t3 with
        | .error e => .error e
        | .ok pooled => bnStage m pooled := by
  obtain ⟨hbs, -, -⟩ := hwf
  obtain ⟨b, t, hL⟩ := List.exists_cons_of_ne_nil hbs
  have hAM : ∃ wv, alphaMove m p.device = .ok (m, wv) := by
    by_cases hw : m.weighted = true
    · obtain ⟨a, ha, hdev⟩ := hwa hw
      refine ⟨some a.values, ?_⟩
      unfold alphaMove
      rw [if_pos hw, ha]
      dsimp only
      rw [if_pos hdev]
    · exact ⟨none, by unfold alphaMove; rw [if_neg hw]⟩
  obtain ⟨wv, hA⟩ := hAM
  have hstack : ∃ outs, stackOutputs m.rnn m.num_directions_ b
      (rnnStackInput (SeqInput.packed p)) (m.recurrent.zip m.recurrent_layers_) = .ok outs ∧
      ∀ o ∈ outs, o.isPackedRep = true := by
    rcases hrnn with h | h | h | h
    · exact stackOutputs_packed_ok m.rnn _ _ (Or.inl h) _ p.data p.batch_sizes
    · exact stackOutputs_packed_ok m.rnn _ _ (Or.inr h) _ p.data p.batch_sizes
    · refine ⟨[], ?_, by simp⟩
      rw [h]
      rfl
    · refine ⟨[], ?_, by simp⟩
      rw [h, List.zip_nil_right]
      rfl
  obtain ⟨outs, hst, hallp⟩ := hstack
  obtain ⟨ts, hden⟩ := densify_packed_ok outs hallp
  unfold forwardCore
  rw [show readShape (SeqInput.packed p) = .ok (b, p.n_features, p.device) from by
    simp only [readShape, hL]]
  dsimp only
  rw [if_neg (fun hc => hc hf)]
  rw [show attentionScoringInput ops m (SeqInput.packed p) =
      .ok (Rep.packed p.data p.batch_sizes) from by
    unfold attentionScoringInput; rw [if_neg (by simp [hin])]; rfl]
  dsimp only
  rw [hA]
  dsimp only
  rw [hst]
  dsimp only [SeqInput.isPacked]
  rw [hden]
  dsimp only
  cases wv with
  | some w => exact ⟨_, rfl⟩
  | none => exact ⟨_, rfl⟩

/-- C6, counterexample.  The claim states that a forward call on packed
input with attention layers configured raises the not-implemented error; in
fact the attention loop at line 246 applies `nn.Linear` to the
`PackedSequence` itself and fails with a library type error *before* the
packed check at lines 249–252, so the call raises a type error instead and
the attention not-implemented raise is unreachable. -/
theorem claim_C6_counterexample :
    mC6.attention_layers_ ≠ [] ∧
    ClopiNet.forward opsW mC6 (SeqInput.packed xC6p) = .error .typeError ∧
    ClopiNet.forward opsW mC6 (SeqInput.packed xC6p) ≠ .error .notImplementedError := by
  refine ⟨by decide, by with_unfolding_all rfl, ?_⟩
  intro hc
  rw [show ClopiNet.forward opsW mC6 (SeqInput.packed xC6p) = .error .typeError from by
    with_unfolding_all rfl] at hc
  injection hc with hc2
  exact PyError.noConfusion hc2

/-- C6, amended.  For every forward call on a well-shaped length-packed
input with the configured feature dimension, under any module forward can
run that far (instance normalization off — otherwise the call dies at line
190 with an `AttributeError` — cell kind valid unless the recurrent stack
is empty, `alphas_` present and on the input's device when weighting is
on): (1) with no attention layers and `max` pooling the call raises the
unsupported-combination `NotImplementedError`; (2) with attention layers
configured the call instead fails with a library type error at the first
attention layer, the not-implemented check being unreachable for packed
input; and (3) with instance normalization enabled the call fails with an
`AttributeError` before either check. -/
theorem claim_C6_theorem :
    (∀ (ops : ExtOps) (m : ClopiNet) (p : PackedInput),
        (SeqInput.packed p).WFShape →
        p.n_features = m.n_features →
        m.instance_normalize = false →
        (m.rnn = "LSTM" ∨ m.rnn = "GRU" ∨ m.recurrent = [] ∨ m.recurrent_layers_ = []) →
        (m.weighted = true → ∃ a, m.alphas_ = some a ∧ a.device = p.device) →
        m.attention_layers_ = [] →
        m.pooling = "max" →
        ClopiNet.forward ops m (SeqInput.packed p) = .error .notImplementedError) ∧
    (∀ (ops : ExtOps) (m : ClopiNet) (p : PackedInput),
        (SeqInput.packed p).WFShape →
        p.n_features = m.n_features →
        m.instance_normalize = false →
        (m.rnn = "LSTM" ∨ m.rnn = "GRU" ∨ m.recurrent = [] ∨ m.recurrent_layers_ = []) →
        (m.weighted = true → ∃ a, m.alphas_ = some a ∧ a.device = p.device) →
        m.attention_layers_ ≠ [] →
        ClopiNet.forward ops m (SeqInput.packed p) = .error .typeError) ∧
    (∀ (ops : ExtOps) (m : ClopiNet) (p : PackedInput),
        (SeqInput.packed p).WFShape →
        p.n_features = m.n_features →
        m.instance_normalize = true →
        ClopiNet.forward ops m (SeqInput.packed p) = .error .attributeError) := by
  refine ⟨?_, ?_, ?_⟩
  · intro ops m p hwf hf hin hrnn hwa hAnil hmax
    obtain ⟨t2, hshape⟩ := forwardCore_packed_shape ops m p hwf hf hin hrnn hwa
    have hAtt : attentionStage ops m (Rep.packed p.data p.batch_sizes) true t2 = .ok t2 := by
      unfold attentionStage
      rw [if_pos hAnil]
    have hPool : poolStage m true t2 = .error .notImplementedError := by
      unfold poolStage
      rw [hmax]
      rw [if_neg (by decide), if_pos rfl, if_pos rfl]
    have hcore : forwardCore ops m (SeqInput.packed p) = .error .notImplementedError := by
      rw [hshape, hAtt]
      dsimp only
      rw [hPool]
    unfold ClopiNet.forward
    rw [hcore]
  · intro ops m p hwf hf hin hrnn hwa hAne
    obtain ⟨t2, hshape⟩ := forwardCore_packed_shape ops m p hwf hf hin hrnn hwa
    have hAtt : attentionStage ops m (Rep.packed p.data p.batch_sizes) true t2 =
        .error .typeError := by
      unfold attentionStage
      rw [if_neg hAne]
      rw [attentionScores_packed ops m p.data p.batch_sizes hAne]
    have hcore : forwardCore ops m (SeqInput.packed p) = .error .typeError := by
      rw [hshape, hAtt]
    unfold ClopiNet.forward
    rw [hcore]
  · intro ops m p hwf hf hin
    obtain ⟨hbs, -, -⟩ := hwf
    obtain ⟨b, t, hL⟩ := List.exists_cons_of_ne_nil hbs
    have hcore : forwardCore ops m (SeqInput.packed p) = .error .attributeError := by
      unfold forwardCore
      rw [show readShape (SeqInput.packed p) = .ok (b, p.n_features, p.device) from by
        simp only [readShape, hL]]
      dsimp only
      rw [if_neg (fun hc => hc hf)]
      rw [show attentionScoringInput ops m (SeqInput.packed p) = .error .attributeError from by
        unfold attentionScoringInput; rw [if_pos hin]; rfl]
    unfold ClopiNet.forward
    rw [hcore]

/-- C6 witness: the three arms at concrete packed inputs — max pooling
raises not-implemented, one attention layer raises the library type error,
instance normalization raises the attribute error. -/
theorem claim_C6_witness :
    ClopiNet.forward opsW mC6max (SeqInput.packed xC6p) = .error .notImplementedError ∧
    ClopiNet.forward opsW mC6 (SeqInput.packed xC6p) = .error .typeError ∧
    ClopiNet.forward opsW mC1 (SeqInput.packed xC6p) = .error .attributeError :=
  ⟨claim_C6_theorem.1 opsW mC6max xC6p (by decide) rfl rfl (Or.inl rfl)
     (fun hw => Bool.noConfusion hw) rfl rfl,
   claim_C6_theorem.2.1 opsW mC6 xC6p (by decide) rfl rfl (Or.inl rfl)
     (fun hw => Bool.noConfusion hw) (by decide),
   claim_C6_theorem.2.2 opsW mC1 xC6p (by decide) rfl rfl⟩

end ClopiNetModel
